import Mathlib

/-!
Verification of the trend-tool chat client and the query-orchestration core.

The definitions below are a shallow embedding of the frontend query-handling
code in `src/frontend/app/page.tsx` (two variants of the `Home` component:
a streaming one consuming server-sent events, and a buffered one posting to
`/api/query`), together with a model of the backend Query Orchestrator,
which is described by the specification but whose source is not part of the
repository snapshot.
-/

namespace TrendTool

/-! ## Data model (from src/frontend/app/page.tsx, interfaces at the top) -/

/-- A cited source document, as in the `Source` interface of `page.tsx`. -/
structure Source where
  gcs_name : String
  name : String
  industry : String
  topics : List String
  url : Option String
deriving DecidableEq

/-- Message role, `"user" | "assistant"` in `ChatMessage.role`. -/
inductive Role where
  | user
  | assistant
deriving DecidableEq

/-- A chat message, as in the `ChatMessage` interface of `page.tsx`.
Optional fields are `Option`; `context_id?: string | null` is an
`Option (Option String)` (absent vs. null vs. a handle). -/
structure ChatMessage where
  id : Nat
  role : Role
  content : String
  sources : Option (List Source)
  context_id : Option (Option String)
  elapsed : Option Nat
deriving DecidableEq

/-- The JSON request body built by `handleSend` (lines 125-132 of the
streaming variant): `question` always, plus at most one of the three
mode fields. `industry_filter` may be present with value null, hence
`Option (Option (List String))`. -/
structure RequestBody where
  question : String
  context_id : Option String
  pinned_gcs_names : Option (List String)
  industry_filter : Option (Option (List String))
deriving DecidableEq

/-- JavaScript truthiness of a `string | null` value: null and the empty
string are falsy, every other string is truthy.  Used because the source
guards with `if (followUpSources.length > 0 && followUpContextId)`. -/
def strTruthy : Option String → Bool
  | none => false
  | some s => s != ""

/-- Request-body construction of the streaming `handleSend`
(`page.tsx` lines 125-132). -/
def buildBodyStream (q : String) (followUpSources : List Source)
    (followUpContextId : Option String) (selectedIndustries : List String) :
    RequestBody :=
  if followUpSources.length > 0 && strTruthy followUpContextId then
    { question := q, context_id := followUpContextId,
      pinned_gcs_names := none, industry_filter := none }
  else if followUpSources.length > 0 then
    { question := q, context_id := none,
      pinned_gcs_names := some (followUpSources.map (fun s => s.gcs_name)),
      industry_filter := none }
  else
    { question := q, context_id := none, pinned_gcs_names := none,
      industry_filter :=
        some (if selectedIndustries.length > 0 then some selectedIndustries else none) }

/-- Request-body construction of the buffered `handleSend`
(`page.tsx` lines 581-587, identically `layout.tsx` lines 135-143). -/
def buildBodyBuffered (q : String) (followUpSources : List Source)
    (followUpContextId : Option String) (selectedIndustries : List String) :
    RequestBody :=
  if followUpSources.length > 0 && strTruthy followUpContextId then
    { question := q, context_id := followUpContextId,
      pinned_gcs_names := none, industry_filter := none }
  else if followUpSources.length > 0 then
    { question := q, context_id := none,
      pinned_gcs_names := some (followUpSources.map (fun s => s.gcs_name)),
      industry_filter := none }
  else
    { question := q, context_id := none, pinned_gcs_names := none,
      industry_filter :=
        some (if selectedIndustries.length > 0 then some selectedIndustries else none) }

/-- Number of retrieval-mode fields present in a request body. -/
def modeFieldCount (b : RequestBody) : Nat :=
  (if b.context_id.isSome then 1 else 0) +
  (if b.pinned_gcs_names.isSome then 1 else 0) +
  (if b.industry_filter.isSome then 1 else 0)

/-- The assistant message appended by the streaming `handleSend` on an
`answer` event (`page.tsx` line 170): id from the incremented counter,
elapsed from `elapsedRef.current`. -/
def streamAnswerMsg (counter elapsedNow : Nat) (a : String)
    (srcs : List Source) (cid : Option String) : ChatMessage :=
  { id := counter + 1, role := .assistant, content := a,
    sources := some srcs, context_id := some cid, elapsed := some elapsedNow }

/-- The assistant message appended by the buffered `handleSend` from the
parsed response (`page.tsx` line 599). -/
def bufferedAnswerMsg (counter elapsedNow : Nat) (a : String)
    (srcs : List Source) (cid : Option String) : ChatMessage :=
  { id := counter + 1, role := .assistant, content := a,
    sources := some srcs, context_id := some cid, elapsed := some elapsedNow }

/-- Projection of a chat message forgetting the message id and elapsed
time (the parts allowed to differ between the two client variants). -/
def msgCore (m : ChatMessage) :
    Role × String × Option (List Source) × Option (Option String) :=
  (m.role, m.content, m.sources, m.context_id)

/-! ## Streaming client state machine (streaming variant of `page.tsx`) -/

/-- The `loadingPhase` state values (`"searching" | "loading" | "answering"`). -/
inductive LoadPhase where
  | searching
  | loading
  | answering
deriving DecidableEq

/-- One entry of the `loadingDocs` state list. -/
structure LoadingDoc where
  name : String
  industry : String
  done : Bool
deriving DecidableEq

/-- A parsed server-sent event, mirroring the `event.type` dispatch of the
reader loop (`page.tsx` lines 154-174). -/
inductive StreamEvent where
  | searching
  | found (total : Nat)
  | loading (name : String) (industry : String)
  | answering
  | answer (ans : String) (sources : List Source) (context_id : Option String)
  | error (message : String)
deriving DecidableEq

/-- The component state touched by `handleSend`: the `useState` hooks of the
streaming `Home` component plus the `elapsedRef` timer flag and the
module-level `msgIdCounter`. -/
structure ClientState where
  messages : List ChatMessage
  input : String
  loading : Bool
  elapsed : Nat
  timerActive : Bool
  selectedIndustries : List String
  followUpMsgId : Option Nat
  followUpSources : List Source
  followUpContextId : Option String
  loadingPhase : Option LoadPhase
  loadingDocs : List LoadingDoc
  loadingTotal : Nat
  msgIdCounter : Nat
deriving DecidableEq

/-- `prev.map((d, i) => i === prev.length - 1 ? { ...d, done: true } : d)`:
mark the last entry of the doc list as done. -/
def markLastDone : List LoadingDoc → List LoadingDoc
  | [] => []
  | [d] => [{ d with done := true }]
  | d :: rest => d :: markLastDone rest

/-- Effect of one parsed event on the component state (`page.tsx` lines
154-174).  An `error` event throws, aborting the reader loop. -/
def stepEvent (s : ClientState) : StreamEvent → Except String ClientState
  | .searching =>
    .ok { s with loadingPhase := some .searching }
  | .found n =>
    .ok { s with loadingTotal := n, loadingPhase := some .loading }
  | .loading nm ind =>
    .ok { s with
          loadingDocs := markLastDone s.loadingDocs ++
            [{ name := nm, industry := ind, done := false }] }
  | .answering =>
    .ok { s with
          loadingPhase := some .answering,
          loadingDocs := s.loadingDocs.map (fun d => { d with done := true }) }
  | .answer a srcs cid =>
    .ok { s with
          msgIdCounter := s.msgIdCounter + 1,
          messages := s.messages ++
            [streamAnswerMsg s.msgIdCounter s.elapsed a srcs cid] }
  | .error m => .error m

/-- Run the reader loop over a list of parsed events; returns the state at
completion or at the point an `error` event threw (Bool: whether it threw). -/
def foldEvents (s : ClientState) : List StreamEvent → ClientState × Bool
  | [] => (s, false)
  | e :: es =>
    match stepEvent s e with
    | .ok s2 => foldEvents s2 es
    | .error _ => (s, true)

/-- The fixed fallback text appended by the catch block. -/
def fallbackText : String :=
  "Something went wrong. Make sure the API is running (`make api`)."

/-- The user message appended at the start of a send (`page.tsx` line 114). -/
def userMsg (counter : Nat) (q : String) : ChatMessage :=
  { id := counter + 1, role := .user, content := q,
    sources := none, context_id := none, elapsed := none }

/-- The fallback assistant message appended by the catch block. -/
def fallbackMsg (counter : Nat) : ChatMessage :=
  { id := counter + 1, role := .assistant, content := fallbackText,
    sources := none, context_id := none, elapsed := none }

/-- Catch block (`page.tsx` lines 177-181): append the fallback assistant
message. -/
def appendFallback (s : ClientState) : ClientState :=
  { s with
    msgIdCounter := s.msgIdCounter + 1,
    messages := s.messages ++ [fallbackMsg s.msgIdCounter] }

/-- State updates before the fetch (`page.tsx` lines 114-122): append the
user message, clear input, reset timers and loading state. -/
def startSend (s : ClientState) (q : String) : ClientState :=
  { s with
    msgIdCounter := s.msgIdCounter + 1,
    messages := s.messages ++ [userMsg s.msgIdCounter q],
    input := "",
    elapsed := 0,
    loading := true,
    loadingPhase := some .searching,
    loadingDocs := [],
    loadingTotal := 0,
    timerActive := true }

/-- Finally block (`page.tsx` lines 182-189): stop the timer and clear the
transient loading state. -/
def finallyClear (s : ClientState) : ClientState :=
  { s with
    timerActive := false,
    loading := false,
    loadingPhase := none,
    loadingDocs := [],
    loadingTotal := 0 }

/-- The streaming `handleSend` (`page.tsx` lines 110-190) as a state
transformer, abstracting the HTTP exchange into whether the response was
ok (`resOk`) and the list of parsed events delivered by the stream. -/
def handleSendStream (s : ClientState) (resOk : Bool)
    (events : List StreamEvent) : ClientState :=
  if s.input.trim == "" || s.loading then s
  else
    finallyClear
      (if resOk then
        match foldEvents (startSend s s.input.trim) events with
        | (s3, false) => s3
        | (s3, true) => appendFallback s3
      else appendFallback (startSend s s.input.trim))

/-! ## Claims about request-body construction -/

/-- C2: every request body built by `handleSend` contains the question and
exactly one of the three mode fields `context_id`, `pinned_gcs_names`,
`industry_filter`, so the latter two are never both present. -/
theorem request_body_exactly_one_mode (q : String) (srcs : List Source)
    (cid : Option String) (sel : List String) :
    (buildBodyStream q srcs cid sel).question = q ∧
    modeFieldCount (buildBodyStream q srcs cid sel) = 1 ∧
    ((buildBodyStream q srcs cid sel).pinned_gcs_names = none ∨
      (buildBodyStream q srcs cid sel).industry_filter = none) := by
  unfold buildBodyStream modeFieldCount
  split
  · rename_i h
    cases cid with
    | none => simp [strTruthy] at h
    | some c => simp
  · split
    · simp
    · simp

/-- A concrete source document used in concrete evaluations. -/
def sampleSource : Source :=
  { gcs_name := "d1", name := "Doc 1", industry := "Retail",
    topics := [], url := none }

/-- C3 counterexample: the claim "while follow-up sources are pinned, if
`followUpContextId` is non-null the request carries `context_id` equal to
that handle" is false: with the handle `some ""` (a non-null but falsy
string) the code takes the `pinned_gcs_names` branch instead. -/
theorem follow_up_context_claim_false :
    ¬ (∀ (q : String) (srcs : List Source) (cid : Option String)
        (sel : List String), srcs ≠ [] → ∀ c, cid = some c →
        (buildBodyStream q srcs cid sel).context_id = some c ∧
        (buildBodyStream q srcs cid sel).pinned_gcs_names = none ∧
        (buildBodyStream q srcs cid sel).industry_filter = none) := by
  intro h
  have hx := h "q" [sampleSource] (some "") [] (by simp) "" rfl
  have hc : (buildBodyStream "q" [sampleSource] (some "") []).context_id
      = none := by decide
  rw [hc] at hx
  exact Option.noConfusion hx.1

/-- C3 amended: while follow-up sources are pinned, if the held context
handle is a non-empty string the request carries `context_id` equal to it
and neither `pinned_gcs_names` nor `industry_filter`; otherwise (no handle,
or an empty-string handle, both falsy in the source's truthiness test) the
request carries `pinned_gcs_names` equal to the `gcs_name`s of the pinned
sources in stored order. -/
theorem follow_up_request_modes (q : String) (srcs : List Source)
    (cid : Option String) (sel : List String) (hs : srcs ≠ []) :
    (∀ c, cid = some c → c ≠ "" →
      (buildBodyStream q srcs cid sel).context_id = some c ∧
      (buildBodyStream q srcs cid sel).pinned_gcs_names = none ∧
      (buildBodyStream q srcs cid sel).industry_filter = none) ∧
    ((cid = none ∨ cid = some "") →
      (buildBodyStream q srcs cid sel).context_id = none ∧
      (buildBodyStream q srcs cid sel).pinned_gcs_names =
        some (srcs.map (fun s => s.gcs_name)) ∧
      (buildBodyStream q srcs cid sel).industry_filter = none) := by
  have hlen : srcs.length > 0 := List.length_pos.mpr hs
  constructor
  · intro c hc hne
    subst hc
    have ht : strTruthy (some c) = true := by
      simp [strTruthy, hne]
    simp [buildBodyStream, hlen, ht]
  · intro hc
    rcases hc with hc | hc <;> subst hc <;>
      simp [buildBodyStream, strTruthy, hlen]

/-- Witness for `follow_up_request_modes` at a concrete pinned source
list and handle. -/
theorem follow_up_request_modes_check :
    ([sampleSource] : List Source) ≠ [] ∧
    (buildBodyStream "q" [sampleSource] (some "h1") []).context_id
      = some "h1" := by
  refine ⟨by simp, ?_⟩
  exact ((follow_up_request_modes "q" [sampleSource] (some "h1") []
    (by simp)).1 "h1" rfl (by decide)).1

/-- C5: the buffered and the streaming client build identical request
bodies from the same UI state, and, given a buffered response whose
answer, sources and context_id agree with the streaming terminal answer
event, both append the same assistant message up to id and elapsed time. -/
theorem buffered_streaming_equivalent (q : String) (srcs : List Source)
    (cid : Option String) (sel : List String) (c1 e1 c2 e2 : Nat)
    (a : String) (asrcs : List Source) (acid : Option String) :
    buildBodyStream q srcs cid sel = buildBodyBuffered q srcs cid sel ∧
    msgCore (streamAnswerMsg c1 e1 a asrcs acid) =
      msgCore (bufferedAnswerMsg c2 e2 a asrcs acid) := by
  exact ⟨rfl, rfl⟩

/-! ## Lemmas about the reader loop -/

/-- Mark a doc entry as done (the `{ ...d, done: true }` update). -/
def setDone (d : LoadingDoc) : LoadingDoc := { d with done := true }

/-- The `loading` event carrying a (name, industry) pair. -/
def loadingEventOf (d : String × String) : StreamEvent := .loading d.1 d.2

/-- Effect of one `loading` event on the `loadingDocs` list. -/
def pushDoc (acc : List LoadingDoc) (d : String × String) : List LoadingDoc :=
  markLastDone acc ++ [{ name := d.1, industry := d.2, done := false }]

/-- A doc entry in its final, done state. -/
def docEntryDone (d : String × String) : LoadingDoc :=
  { name := d.1, industry := d.2, done := true }

/-- Recognizer for `answer` events. -/
def isAnswerEvent : StreamEvent → Bool
  | .answer _ _ _ => true
  | _ => false

/-- Recognizer for `error` events. -/
def isErrorEvent : StreamEvent → Bool
  | .error _ => true
  | _ => false

theorem markLastDone_mapDone : ∀ (l : List LoadingDoc),
    (markLastDone l).map setDone = l.map setDone := by
  intro l
  induction l with
  | nil => rfl
  | cons d rest ih =>
    cases rest with
    | nil => rfl
    | cons e rest2 => simp only [markLastDone, List.map_cons] at ih ⊢; rw [ih]

theorem foldl_pushDoc_mapDone : ∀ (ds : List (String × String))
    (acc : List LoadingDoc),
    (ds.foldl pushDoc acc).map setDone = acc.map setDone ++ ds.map docEntryDone := by
  intro ds
  induction ds with
  | nil => intro acc; simp
  | cons d rest ih =>
    intro acc
    simp only [List.foldl_cons, List.map_cons]
    rw [ih]
    simp [pushDoc, markLastDone_mapDone, setDone, docEntryDone]

theorem foldEvents_ok_append (xs : List StreamEvent) : ∀ (s : ClientState)
    (ys : List StreamEvent), (foldEvents s xs).2 = false →
    foldEvents s (xs ++ ys) = foldEvents (foldEvents s xs).1 ys := by
  induction xs with
  | nil => intro s ys _; rfl
  | cons e rest ih =>
    intro s ys h
    cases e with
    | error m => simp [foldEvents, stepEvent] at h
    | searching => exact ih _ _ h
    | found n => exact ih _ _ h
    | loading nm ind => exact ih _ _ h
    | answering => exact ih _ _ h
    | answer a srcs cid => exact ih _ _ h

theorem foldEvents_preserves (evs : List StreamEvent) : ∀ (s : ClientState),
    (foldEvents s evs).1.selectedIndustries = s.selectedIndustries ∧
    (foldEvents s evs).1.followUpMsgId = s.followUpMsgId ∧
    (foldEvents s evs).1.followUpSources = s.followUpSources ∧
    (foldEvents s evs).1.followUpContextId = s.followUpContextId := by
  induction evs with
  | nil => intro s; exact ⟨rfl, rfl, rfl, rfl⟩
  | cons e rest ih =>
    intro s
    cases e with
    | error m => exact ⟨rfl, rfl, rfl, rfl⟩
    | searching => exact ih _
    | found n => exact ih _
    | loading nm ind => exact ih _
    | answering => exact ih _
    | answer a srcs cid => exact ih _

theorem foldEvents_loadings_then (ds : List (String × String)) :
    ∀ (s : ClientState) (evs : List StreamEvent),
    foldEvents s (ds.map loadingEventOf ++ evs) =
      foldEvents { s with loadingDocs := ds.foldl pushDoc s.loadingDocs } evs := by
  induction ds with
  | nil => intro s evs; rfl
  | cons d rest ih =>
    intro s evs
    exact ih _ _

theorem foldEvents_no_terminal (evs : List StreamEvent) : ∀ (s : ClientState),
    (∀ e ∈ evs, isAnswerEvent e = false ∧ isErrorEvent e = false) →
    (foldEvents s evs).2 = false ∧
    (foldEvents s evs).1.messages = s.messages ∧
    (foldEvents s evs).1.msgIdCounter = s.msgIdCounter := by
  induction evs with
  | nil => intro s _; exact ⟨rfl, rfl, rfl⟩
  | cons e rest ih =>
    intro s h
    have he := h e (List.mem_cons_self e rest)
    have hrest : ∀ e2 ∈ rest, isAnswerEvent e2 = false ∧ isErrorEvent e2 = false :=
      fun e2 he2 => h e2 (List.mem_cons_of_mem e he2)
    cases e with
    | error m => simp [isErrorEvent] at he
    | answer a srcs cid => simp [isAnswerEvent] at he
    | searching => exact ih _ hrest
    | found n => exact ih _ hrest
    | loading nm ind => exact ih _ hrest
    | answering => exact ih _ hrest

/-! ## Claims about the streaming client -/

/-- A concrete idle component state used in concrete evaluations. -/
def idleState : ClientState :=
  { messages := [], input := "hello", loading := false, elapsed := 0,
    timerActive := false, selectedIndustries := [], followUpMsgId := none,
    followUpSources := [], followUpContextId := none, loadingPhase := none,
    loadingDocs := [], loadingTotal := 0, msgIdCounter := 0 }

/-- A concrete busy component state (a query already in flight). -/
def busyState : ClientState :=
  { idleState with loading := true }

theorem trim_hello : ("hello" : String).trim = "hello" := by
  have h0 : ("hello" : String).toSubstring = ⟨"hello", ⟨0⟩, ⟨5⟩⟩ := rfl
  have h1 : Substring.takeWhileAux "hello" ⟨5⟩ Char.isWhitespace ⟨0⟩ = ⟨0⟩ := by
    rw [Substring.takeWhileAux]; decide
  have h2 : Substring.takeRightWhileAux "hello" ⟨0⟩ Char.isWhitespace ⟨5⟩ = ⟨5⟩ := by
    rw [Substring.takeRightWhileAux]; decide
  show (("hello" : String).toSubstring.trim).toString = "hello"
  unfold Substring.trim
  simp only [h0, h1, h2]
  decide

theorem idle_input_trimmed : idleState.input.trim ≠ "" := by
  show ("hello" : String).trim ≠ ""
  rw [trim_hello]
  decide

/-- C10: if the trimmed input is empty or a query is already in flight,
`handleSend` returns immediately and the state is unchanged. -/
theorem guard_blocks_send (s : ClientState) (resOk : Bool)
    (events : List StreamEvent) (h : s.input.trim = "" ∨ s.loading = true) :
    handleSendStream s resOk events = s := by
  unfold handleSendStream
  rcases h with h | h <;> simp [h]

/-- Witness for `guard_blocks_send`: a send while loading is a no-op. -/
theorem guard_blocks_send_check :
    (busyState.input.trim = "" ∨ busyState.loading = true) ∧
    handleSendStream busyState true [] = busyState :=
  ⟨Or.inr rfl, guard_blocks_send busyState true [] (Or.inr rfl)⟩

/-- C8: `handleSend` never modifies `selectedIndustries`, `followUpMsgId`,
`followUpSources` or `followUpContextId`, so successive follow-up sends
derive the same context handle or pinned set until explicitly cleared. -/
theorem send_preserves_follow_up_state (s : ClientState) (resOk : Bool)
    (events : List StreamEvent) :
    (handleSendStream s resOk events).selectedIndustries = s.selectedIndustries ∧
    (handleSendStream s resOk events).followUpMsgId = s.followUpMsgId ∧
    (handleSendStream s resOk events).followUpSources = s.followUpSources ∧
    (handleSendStream s resOk events).followUpContextId = s.followUpContextId := by
  unfold handleSendStream
  split
  · exact ⟨rfl, rfl, rfl, rfl⟩
  · cases resOk with
    | false => exact ⟨rfl, rfl, rfl, rfl⟩
    | true =>
      have hp := foldEvents_preserves events (startSend s s.input.trim)
      rcases hf : foldEvents (startSend s s.input.trim) events with ⟨s3, b⟩
      rw [hf] at hp
      cases b with
      | false =>
        simp only [if_pos rfl]
        exact ⟨hp.1, hp.2.1, hp.2.2.1, hp.2.2.2⟩
      | true =>
        simp only [if_pos rfl]
        exact ⟨hp.1, hp.2.1, hp.2.2.1, hp.2.2.2⟩

theorem foldEvents_upto_answering (s1 : ClientState) (n : Nat)
    (ds : List (String × String)) :
    foldEvents s1
        ([.searching, .found n] ++ ds.map loadingEventOf ++ [.answering]) =
      ({ s1 with
         loadingPhase := some .answering,
         loadingTotal := n,
         loadingDocs := (ds.foldl pushDoc s1.loadingDocs).map setDone }, false) := by
  have h2 : [StreamEvent.searching, .found n] ++ ds.map loadingEventOf ++
      [StreamEvent.answering] =
      .searching :: .found n :: (ds.map loadingEventOf ++ [.answering]) := by
    simp
  rw [h2]
  show foldEvents { s1 with loadingPhase := some .loading, loadingTotal := n }
      (ds.map loadingEventOf ++ [.answering]) = _
  rw [foldEvents_loadings_then]
  rfl

theorem foldEvents_full (s1 : ClientState) (n : Nat)
    (ds : List (String × String)) (a : String) (srcs : List Source)
    (cid : Option String) :
    foldEvents s1 ([.searching, .found n] ++ ds.map loadingEventOf ++
        [.answering, .answer a srcs cid]) =
      ({ s1 with
         loadingPhase := some .answering,
         loadingTotal := n,
         loadingDocs := (ds.foldl pushDoc s1.loadingDocs).map setDone,
         msgIdCounter := s1.msgIdCounter + 1,
         messages := s1.messages ++
           [streamAnswerMsg s1.msgIdCounter s1.elapsed a srcs cid] }, false) := by
  have h2 : [StreamEvent.searching, .found n] ++ ds.map loadingEventOf ++
      [StreamEvent.answering, .answer a srcs cid] =
      .searching :: .found n ::
        (ds.map loadingEventOf ++ [.answering, .answer a srcs cid]) := by
    simp
  rw [h2]
  show foldEvents { s1 with loadingPhase := some .loading, loadingTotal := n }
      (ds.map loadingEventOf ++ [.answering, .answer a srcs cid]) = _
  rw [foldEvents_loadings_then]
  rfl

/-- C7: a non-ok response, or an `error` event arriving before any
`answer`, yields exactly one assistant message with the fixed fallback
text and no answer message; and the finally block always clears the
transient loading state and the timer. -/
theorem error_yields_single_fallback (s : ClientState)
    (hq : s.input.trim ≠ "") (hl : s.loading = false) :
    (∀ events : List StreamEvent, ∃ u f : ChatMessage,
      (handleSendStream s false events).messages = s.messages ++ [u, f] ∧
      u.role = .user ∧ f.role = .assistant ∧ f.content = fallbackText ∧
      f.sources = none) ∧
    (∀ (pre rest : List StreamEvent) (m : String),
      (∀ e ∈ pre, isAnswerEvent e = false ∧ isErrorEvent e = false) →
      ∃ u f : ChatMessage,
        (handleSendStream s true (pre ++ .error m :: rest)).messages =
          s.messages ++ [u, f] ∧
        u.role = .user ∧ f.role = .assistant ∧ f.content = fallbackText ∧
        f.sources = none) ∧
    (∀ (resOk : Bool) (events : List StreamEvent),
      (handleSendStream s resOk events).loading = false ∧
      (handleSendStream s resOk events).loadingPhase = none ∧
      (handleSendStream s resOk events).loadingDocs = [] ∧
      (handleSendStream s resOk events).loadingTotal = 0 ∧
      (handleSendStream s resOk events).timerActive = false) := by
  have hguard : (s.input.trim == "" || s.loading) = false := by
    simp [hq, hl]
  refine ⟨?_, ?_, ?_⟩
  · intro events
    refine ⟨userMsg s.msgIdCounter s.input.trim, fallbackMsg (s.msgIdCounter + 1),
      ?_, rfl, rfl, rfl, rfl⟩
    unfold handleSendStream
    rw [hguard]
    simp [finallyClear, appendFallback, startSend]
  · intro pre rest m hpre
    have hnt := foldEvents_no_terminal pre (startSend s s.input.trim) hpre
    have happ := foldEvents_ok_append pre (startSend s s.input.trim)
      (.error m :: rest) hnt.1
    refine ⟨userMsg s.msgIdCounter s.input.trim,
      fallbackMsg (foldEvents (startSend s s.input.trim) pre).1.msgIdCounter,
      ?_, rfl, rfl, rfl, rfl⟩
    have hrun : handleSendStream s true (pre ++ .error m :: rest) =
        finallyClear
          (appendFallback (foldEvents (startSend s s.input.trim) pre).1) := by
      unfold handleSendStream
      rw [hguard]
      simp only [Bool.false_eq_true, if_false, if_true, happ]
      rfl
    rw [hrun]
    simp only [finallyClear, appendFallback]
    rw [hnt.2.1]
    simp [startSend]
  · intro resOk events
    unfold handleSendStream
    rw [hguard]
    simp only [Bool.false_eq_true, if_false]
    exact ⟨rfl, rfl, rfl, rfl, rfl⟩

/-- Witness for `error_yields_single_fallback` at a concrete state. -/
theorem error_yields_single_fallback_check :
    idleState.input.trim ≠ "" ∧ idleState.loading = false ∧
    ∃ u f : ChatMessage,
      (handleSendStream idleState false []).messages =
        idleState.messages ++ [u, f] ∧
      u.role = .user ∧ f.role = .assistant ∧ f.content = fallbackText ∧
      f.sources = none :=
  ⟨idle_input_trimmed, rfl,
    (error_yields_single_fallback idleState idle_input_trimmed rfl).1 []⟩

/-- C6: for a well-formed streamed sequence `searching, found n,
loading d1 .. loading dk, answering, answer a`, the client sets the
progress denominator to `n` at the `found` event, ends with `loadingDocs`
exactly `[d1..dk]` in order all marked done after `answering`, and appends
exactly one assistant message carrying the answer fields. -/
theorem stream_happy_path (s : ClientState) (n : Nat)
    (ds : List (String × String)) (a : String) (srcs : List Source)
    (cid : Option String) (hq : s.input.trim ≠ "") (hl : s.loading = false) :
    (foldEvents (startSend s s.input.trim)
        [.searching, .found n]).1.loadingTotal = n ∧
    (foldEvents (startSend s s.input.trim)
        ([.searching, .found n] ++ ds.map loadingEventOf ++
          [.answering])).1.loadingDocs = ds.map docEntryDone ∧
    ∃ u msg : ChatMessage,
      (handleSendStream s true
          ([.searching, .found n] ++ ds.map loadingEventOf ++
            [.answering, .answer a srcs cid])).messages =
        s.messages ++ [u, msg] ∧
      u.role = .user ∧ u.content = s.input.trim ∧
      msg.role = .assistant ∧ msg.content = a ∧ msg.sources = some srcs ∧
      msg.context_id = some cid := by
  have hguard : (s.input.trim == "" || s.loading) = false := by
    simp [hq, hl]
  refine ⟨rfl, ?_, ?_⟩
  · rw [foldEvents_upto_answering]
    show (ds.foldl pushDoc (startSend s s.input.trim).loadingDocs).map setDone
      = ds.map docEntryDone
    rw [foldl_pushDoc_mapDone]
    simp [startSend]
  · refine ⟨userMsg s.msgIdCounter s.input.trim,
      streamAnswerMsg (s.msgIdCounter + 1) 0 a srcs cid,
      ?_, rfl, rfl, rfl, rfl, rfl, rfl⟩
    unfold handleSendStream
    rw [hguard]
    simp only [Bool.false_eq_true, if_false, if_true, foldEvents_full]
    simp [finallyClear, startSend, streamAnswerMsg]

/-- Witness for `stream_happy_path` at a concrete two-document stream. -/
theorem stream_happy_path_check :
    idleState.input.trim ≠ "" ∧ idleState.loading = false ∧
    (foldEvents (startSend idleState idleState.input.trim)
        ([.searching, .found 2] ++
          ([("Doc A", "Retail"), ("Doc B", "Tech")].map loadingEventOf) ++
          [.answering])).1.loadingDocs =
      [("Doc A", "Retail"), ("Doc B", "Tech")].map docEntryDone :=
  ⟨idle_input_trimmed, rfl,
    (stream_happy_path idleState 2 [("Doc A", "Retail"), ("Doc B", "Tech")]
      "ans" [sampleSource] (some "h1") idle_input_trimmed rfl).2.1⟩

/-! ## SSE line reassembly (reader loop, `page.tsx` lines 141-153)

The decoded byte stream is modelled as a list of characters; each read
chunk is appended to the carry-over buffer, the buffer is split on
newlines, the trailing partial line is retained, and only complete lines
prefixed `"data: "` are parsed. -/

/-- Split a character stream into the complete (newline-terminated) lines
and the trailing partial line, as `buffer.split("\n")` followed by
`buffer = lines.pop()` does. -/
def splitLines : List Char → List (List Char) × List Char
  | [] => ([], [])
  | c :: rest =>
    let p := splitLines rest
    if c = '\n' then ([] :: p.1, p.2)
    else
      match p.1 with
      | [] => ([], c :: p.2)
      | l :: ls => ((c :: l) :: ls, p.2)

/-- One iteration of the reader loop: append the chunk to the buffer,
emit the complete lines, keep the partial line. -/
def sseStep (st : List (List Char) × List Char) (chunk : List Char) :
    List (List Char) × List Char :=
  ((st.1 ++ (splitLines (st.2 ++ chunk)).1), (splitLines (st.2 ++ chunk)).2)

/-- The complete lines emitted over a whole sequence of read chunks
(the trailing buffer is discarded when the stream ends). -/
def sseRun (chunks : List (List Char)) : List (List Char) × List Char :=
  chunks.foldl sseStep ([], [])

/-- The characters of `"data: "`. -/
def dataMarker : List Char := ['d', 'a', 't', 'a', ':', ' ']

/-- `line.startsWith("data: ")` filter plus `line.slice(6)`: the payloads
handed to `JSON.parse`, in order. -/
def parsePayloads (lines : List (List Char)) : List (List Char) :=
  lines.filterMap
    (fun l => if dataMarker.isPrefixOf l then some (l.drop 6) else none)

/-- The sequence of event payloads the reader loop parses from a chunked
byte stream. -/
def sseEvents (chunks : List (List Char)) : List (List Char) :=
  parsePayloads (sseRun chunks).1

/-- Concatenation of the read chunks: the underlying byte stream. -/
def catChunks : List (List Char) → List Char
  | [] => []
  | c :: cs => c ++ catChunks cs

theorem splitLines_cons_nl (rest : List Char) :
    splitLines ('\n' :: rest) =
      ([] :: (splitLines rest).1, (splitLines rest).2) := by
  simp [splitLines]

theorem splitLines_cons_none (c : Char) (rest : List Char) (hc : c ≠ '\n')
    (h1 : (splitLines rest).1 = []) :
    splitLines (c :: rest) = ([], c :: (splitLines rest).2) := by
  simp [splitLines, hc, h1]

theorem splitLines_cons_more (c : Char) (rest l : List Char)
    (ls : List (List Char)) (hc : c ≠ '\n')
    (h1 : (splitLines rest).1 = l :: ls) :
    splitLines (c :: rest) = ((c :: l) :: ls, (splitLines rest).2) := by
  simp [splitLines, hc, h1]

theorem splitLines_append (x : List Char) : ∀ (y : List Char),
    splitLines (x ++ y) =
      ((splitLines x).1 ++ (splitLines ((splitLines x).2 ++ y)).1,
        (splitLines ((splitLines x).2 ++ y)).2) := by
  induction x with
  | nil => intro y; simp [splitLines]
  | cons c rest ih =>
    intro y
    rw [List.cons_append]
    by_cases hc : c = '\n'
    · subst hc
      rw [splitLines_cons_nl (rest ++ y), splitLines_cons_nl rest, ih y]
      simp
    · rcases h1 : (splitLines rest).1 with _ | ⟨l, ls⟩
      · rw [splitLines_cons_none c rest hc h1]
        rw [List.nil_append, List.cons_append]
        rcases h2 : (splitLines ((splitLines rest).2 ++ y)).1 with _ | ⟨m, ms⟩
        · rw [splitLines_cons_none c _ hc h2]
          have hL : (splitLines (rest ++ y)).1 = [] := by
            rw [ih y, h1, h2]
            rfl
          have hR : (splitLines (rest ++ y)).2 =
              (splitLines ((splitLines rest).2 ++ y)).2 := by
            rw [ih y]
          rw [splitLines_cons_none c _ hc hL, hR]
        · rw [splitLines_cons_more c _ m ms hc h2]
          have hL : (splitLines (rest ++ y)).1 = m :: ms := by
            rw [ih y, h1, h2]
            rfl
          have hR : (splitLines (rest ++ y)).2 =
              (splitLines ((splitLines rest).2 ++ y)).2 := by
            rw [ih y]
          rw [splitLines_cons_more c _ m ms hc hL, hR]
      · rw [splitLines_cons_more c rest l ls hc h1]
        have hL : (splitLines (rest ++ y)).1 =
            l :: (ls ++ (splitLines ((splitLines rest).2 ++ y)).1) := by
          rw [ih y, h1]
          rfl
        have hR : (splitLines (rest ++ y)).2 =
            (splitLines ((splitLines rest).2 ++ y)).2 := by
          rw [ih y]
        rw [splitLines_cons_more c _ l _ hc hL, hR]
        simp

/-- The residue left after splitting contains no newline, so splitting it
again emits nothing. -/
theorem splitLines_residue (s : List Char) :
    splitLines (splitLines s).2 = ([], (splitLines s).2) := by
  induction s with
  | nil => rfl
  | cons c rest ih =>
    by_cases hc : c = '\n'
    · subst hc
      rw [splitLines_cons_nl rest]
      exact ih
    · rcases h1 : (splitLines rest).1 with _ | ⟨l, ls⟩
      · rw [splitLines_cons_none c rest hc h1]
        have h2 : (splitLines (splitLines rest).2).1 = [] := by rw [ih]
        rw [splitLines_cons_none c _ hc h2,
          show (splitLines (splitLines rest).2).2 = (splitLines rest).2 from
            by rw [ih]]
      · rw [splitLines_cons_more c rest l ls hc h1]
        exact ih

theorem sseRun_foldl (chunks : List (List Char)) :
    ∀ (em : List (List Char)) (buf : List Char),
    splitLines buf = ([], buf) →
    chunks.foldl sseStep (em, buf) =
      (em ++ (splitLines (buf ++ catChunks chunks)).1,
        (splitLines (buf ++ catChunks chunks)).2) := by
  induction chunks with
  | nil =>
    intro em buf hbuf
    simp [catChunks, hbuf]
  | cons c cs ih =>
    intro em buf hbuf
    rw [List.foldl_cons,
      show sseStep (em, buf) c =
        (em ++ (splitLines (buf ++ c)).1, (splitLines (buf ++ c)).2) from rfl,
      ih (em ++ (splitLines (buf ++ c)).1) (splitLines (buf ++ c)).2
        (splitLines_residue (buf ++ c)),
      show catChunks (c :: cs) = c ++ catChunks cs from rfl,
      ← List.append_assoc buf c (catChunks cs),
      splitLines_append (buf ++ c) (catChunks cs)]
    simp

/-- C9: the SSE reassembly of the reader loop is chunking-invariant: two
chunkings of the same character stream (ending in a newline) yield the
same parsed event payloads in the same order. -/
theorem sse_chunking_invariant (cs1 cs2 : List (List Char))
    (hjoin : catChunks cs1 = catChunks cs2)
    (hnl : (catChunks cs1).getLast? = some '\n') :
    sseEvents cs1 = sseEvents cs2 := by
  unfold sseEvents sseRun
  rw [sseRun_foldl cs1 [] [] rfl, sseRun_foldl cs2 [] [] rfl, hjoin]

/-- Witness for `sse_chunking_invariant`: one event split across two reads
parses the same as a single read. -/
theorem sse_chunking_invariant_check :
    catChunks [['d', 'a', 't', 'a', ':', ' ', '1', '\n']] =
      catChunks [['d', 'a'], ['t', 'a', ':', ' ', '1', '\n']] ∧
    (catChunks [['d', 'a', 't', 'a', ':', ' ', '1', '\n']]).getLast? =
      some '\n' ∧
    sseEvents [['d', 'a', 't', 'a', ':', ' ', '1', '\n']] =
      sseEvents [['d', 'a'], ['t', 'a', ':', ' ', '1', '\n']] :=
  ⟨by decide, by decide,
    sse_chunking_invariant [['d', 'a', 't', 'a', ':', ' ', '1', '\n']]
      [['d', 'a'], ['t', 'a', ':', ' ', '1', '\n']] (by decide) (by decide)⟩

/-! ## Query Orchestrator model

The backend (Retriever, Context Cache, Synthesizer, Query Orchestrator) is
not part of the repository snapshot — only the frontend is — so the
definitions in this section are modelled from the specification (sections
3 and 4.3), with the Retriever, Context Cache and Synthesizer supplied as
oracles. -/

/-- Modelled from the spec: `ChunkRef` (spec section 3) — chunk id, owning
document id, text, industry, topics, optional url, relevance score; the
backend source is missing from the snapshot. -/
structure ChunkRef where
  chunkId : Nat
  docId : String
  docName : String
  industry : String
  text : String
  topics : List String
  url : Option String
  score : Int
deriving DecidableEq

/-- Modelled from the spec: `RetrievalFilter` (spec section 3), a tagged
variant with exactly one active restriction. -/
inductive RetrievalFilter where
  | unrestricted
  | byIndustries (industries : List String)
  | byDocuments (docs : List String)
deriving DecidableEq

/-- Modelled from the spec: `QueryRequest` (spec section 3), one of three
mutually exclusive shapes. -/
inductive QueryRequest where
  | fresh (question : String) (industryFilter : Option (List String))
  | withHandle (question : String) (handle : String)
  | withPinned (question : String) (pinned : List String)
deriving DecidableEq

/-- Modelled from the spec: `AnswerResult` (spec section 3). -/
structure AnswerResult where
  answer : String
  sources : List Source
  context_id : String
deriving DecidableEq

/-- Modelled from the spec: `PhaseEvent` (spec section 3). -/
inductive PhaseEvent where
  | searching
  | found (total : Nat)
  | loading (docName : String) (industry : String)
  | answering
  | answer (result : AnswerResult)
  | error (message : String)
deriving DecidableEq

/-- Retrieval phases (`Searching`, `Found`, `Loading`): the events the
fast path must not emit. -/
def isRetrievalPhase : PhaseEvent → Bool
  | .searching => true
  | .found _ => true
  | .loading _ _ => true
  | _ => false

/-- Terminal events (`Answer` or `Error`). -/
def isTerminalEvent : PhaseEvent → Bool
  | .answer _ => true
  | .error _ => true
  | _ => false

/-- The position of an event in the mandated phase order: `Searching`
before `Found` before every `Loading` before `Answering` before the
terminal event. -/
def phaseTag : PhaseEvent → Nat
  | .searching => 0
  | .found _ => 1
  | .loading _ _ => 2
  | .answering => 3
  | .answer _ => 4
  | .error _ => 4

/-- First chunk per owning document in retrieval-rank order (the distinct
owning documents of spec section 4.3, steps 3-4). -/
def dedupByDoc : List ChunkRef → List String → List ChunkRef
  | [], _ => []
  | c :: rest, seen =>
    if c.docId ∈ seen then dedupByDoc rest seen
    else c :: dedupByDoc rest (c.docId :: seen)

/-- Result of one orchestrated query: the emitted phase events and the
chunk list passed to the Synthesizer (`none` when synthesis never ran). -/
structure OrchestratorRun where
  events : List PhaseEvent
  synthChunks : Option (List ChunkRef)
deriving DecidableEq

/-- Modelled from the spec: the slow path of the Query Orchestrator (spec
section 4.3 steps 2-6): emit `Searching`, retrieve, emit `Found` with the
distinct-document count, one `Loading` per distinct document in rank
order, emit `Answering`, synthesize, then the terminal event. -/
def slowPath
    (retrieve : String → RetrievalFilter → Except String (List ChunkRef))
    (synthesize : String → List ChunkRef → Except String (String × List Source))
    (freshHandle : String) (question : String) (filt : RetrievalFilter) :
    OrchestratorRun :=
  match retrieve question filt with
  | .error m => { events := [.searching, .error m], synthChunks := none }
  | .ok chunks =>
    match synthesize question chunks with
    | .error m =>
      { events := [PhaseEvent.searching, .found (dedupByDoc chunks []).length] ++
          (dedupByDoc chunks []).map
            (fun d => PhaseEvent.loading d.docName d.industry) ++
          [.answering, .error m],
        synthChunks := some chunks }
    | .ok (a, srcs) =>
      { events := [PhaseEvent.searching, .found (dedupByDoc chunks []).length] ++
          (dedupByDoc chunks []).map
            (fun d => PhaseEvent.loading d.docName d.industry) ++
          [.answering,
            .answer { answer := a, sources := srcs, context_id := freshHandle }],
        synthChunks := some chunks }

/-- Modelled from the spec: the Query Orchestrator state machine (spec
section 4.3).  A request with a handle first tries the Context Cache
(`load`); on a hit it skips directly to `Answering` with the cached
chunks; on a miss, or for the other request shapes, it runs the slow path
with the derived filter (an evicted handle with no pinned ids falls back
to `Unrestricted`, spec section 8). -/
def orchestrate (load : String → Option (List ChunkRef))
    (retrieve : String → RetrievalFilter → Except String (List ChunkRef))
    (synthesize : String → List ChunkRef → Except String (String × List Source))
    (freshHandle : String) : QueryRequest → OrchestratorRun
  | .fresh question filt =>
    slowPath retrieve synthesize freshHandle question
      (match filt with
        | none => .unrestricted
        | some inds => .byIndustries inds)
  | .withPinned question pinned =>
    slowPath retrieve synthesize freshHandle question (.byDocuments pinned)
  | .withHandle question handle =>
    match load handle with
    | some chunks =>
      match synthesize question chunks with
      | .error m =>
        { events := [.answering, .error m], synthChunks := some chunks }
      | .ok (a, srcs) =>
        { events := [.answering,
            .answer { answer := a, sources := srcs, context_id := freshHandle }],
          synthChunks := some chunks }
    | none => slowPath retrieve synthesize freshHandle question .unrestricted

/-- C1: for a request carrying a handle the cache recognizes (a valid,
unexpired handle), no `Searching`/`Found`/`Loading` event is emitted and
the chunk list passed to the Synthesizer is exactly the cached one. -/
theorem fast_path_uses_cached_chunks
    (load : String → Option (List ChunkRef))
    (retrieve : String → RetrievalFilter → Except String (List ChunkRef))
    (synthesize : String → List ChunkRef → Except String (String × List Source))
    (freshHandle question handle : String) (chunks : List ChunkRef)
    (hload : load handle = some chunks) :
    ((orchestrate load retrieve synthesize freshHandle
        (.withHandle question handle)).events.all
      (fun e => !isRetrievalPhase e)) = true ∧
    (orchestrate load retrieve synthesize freshHandle
        (.withHandle question handle)).synthChunks = some chunks := by
  simp only [orchestrate]
  rw [hload]
  dsimp only
  cases hs : synthesize question chunks with
  | error m => simp [isRetrievalPhase]
  | ok p =>
    obtain ⟨a, srcs⟩ := p
    simp [isRetrievalPhase]

/-- A concrete retrieved chunk used in concrete evaluations. -/
def sampleChunk : ChunkRef :=
  { chunkId := 0, docId := "d1", docName := "Doc 1", industry := "Retail",
    text := "chunk text", topics := [], url := none, score := 1 }

/-- A concrete Context Cache with one stored handle. -/
def loadW : String → Option (List ChunkRef) := fun h =>
  if h = "h1" then some [sampleChunk] else none

/-- A concrete Retriever oracle. -/
def retrieveW : String → RetrievalFilter → Except String (List ChunkRef) :=
  fun _ _ => .ok [sampleChunk]

/-- A concrete Synthesizer oracle. -/
def synthesizeW : String → List ChunkRef → Except String (String × List Source) :=
  fun _ _ => .ok ("the answer", [sampleSource])

/-- Witness for `fast_path_uses_cached_chunks` at a concrete cache hit. -/
theorem fast_path_uses_cached_chunks_check :
    loadW "h1" = some [sampleChunk] ∧
    ((orchestrate loadW retrieveW synthesizeW "h2"
        (.withHandle "q" "h1")).events.all
      (fun e => !isRetrievalPhase e)) = true ∧
    (orchestrate loadW retrieveW synthesizeW "h2"
        (.withHandle "q" "h1")).synthChunks = some [sampleChunk] := by
  have h := fast_path_uses_cached_chunks loadW retrieveW synthesizeW
    "h2" "q" "h1" [sampleChunk] (by decide)
  exact ⟨by decide, h.1, h.2⟩

theorem pairwise_two_block : ∀ (k : List Nat), (∀ x ∈ k, x = 2) →
    List.Pairwise (fun a b => a ≤ b) (k ++ [3, (4 : Nat)])
  | [], _ => by simp [List.pairwise_cons]
  | x :: k, h => by
    rw [List.cons_append, List.pairwise_cons]
    refine ⟨?_, pairwise_two_block k (fun y hy => h y (by simp [hy]))⟩
    intro b hb
    have hx : x = 2 := h x (by simp)
    subst hx
    rcases List.mem_append.mp hb with hb | hb
    · have := h b (by simp [hb])
      omega
    · simp only [List.mem_cons, List.mem_singleton] at hb
      rcases hb with hb | hb | hb
      · omega
      · omega
      · simp at hb

theorem pairwise_full_block (k : List Nat) (hk : ∀ x ∈ k, x = 2) :
    List.Pairwise (fun a b => a ≤ b) (0 :: 1 :: (k ++ [3, (4 : Nat)])) := by
  rw [List.pairwise_cons]
  refine ⟨fun b _ => Nat.zero_le b, ?_⟩
  rw [List.pairwise_cons]
  refine ⟨?_, pairwise_two_block k hk⟩
  intro b hb
  rcases List.mem_append.mp hb with hb | hb
  · have := hk b hb
    omega
  · simp only [List.mem_cons, List.mem_singleton] at hb
    rcases hb with hb | hb | hb
    · omega
    · omega
    · simp at hb

theorem slow_events_ordered (n : Nat) (docs : List ChunkRef) (t : PhaseEvent)
    (ht : isTerminalEvent t = true) (htag : phaseTag t = 4) :
    List.Pairwise (fun a b => a ≤ b)
      (([PhaseEvent.searching, .found n] ++
        docs.map (fun d => PhaseEvent.loading d.docName d.industry) ++
        [.answering, t]).map phaseTag) ∧
    (([PhaseEvent.searching, .found n] ++
        docs.map (fun d => PhaseEvent.loading d.docName d.industry) ++
        [.answering, t]).filter isTerminalEvent).length = 1 ∧
    ∃ u, ([PhaseEvent.searching, .found n] ++
        docs.map (fun d => PhaseEvent.loading d.docName d.industry) ++
        [.answering, t]).getLast? = some u ∧ isTerminalEvent u = true := by
  refine ⟨?_, ?_, ?_⟩
  · have hshape : ([PhaseEvent.searching, .found n] ++
        docs.map (fun d => PhaseEvent.loading d.docName d.industry) ++
        [.answering, t]).map phaseTag =
        0 :: 1 ::
          ((docs.map (fun d => PhaseEvent.loading d.docName d.industry)).map
              phaseTag ++ [3, phaseTag t]) := by
      simp [phaseTag]
    rw [hshape, htag]
    apply pairwise_full_block
    intro x hx
    simp only [List.mem_map] at hx
    obtain ⟨e, he, hex⟩ := hx
    obtain ⟨d, _, hd⟩ := he
    subst hd
    subst hex
    rfl
  · have hmapnil : (docs.map
        (fun d => PhaseEvent.loading d.docName d.industry)).filter
        isTerminalEvent = [] := by
      rw [List.filter_eq_nil_iff]
      intro e he
      simp only [List.mem_map] at he
      obtain ⟨d, _, hd⟩ := he
      subst hd
      simp [isTerminalEvent]
    simp only [List.filter_append, hmapnil]
    rw [List.filter_cons, List.filter_cons, List.filter_cons,
      List.filter_cons, ht, List.filter_nil]
    simp [isTerminalEvent]
  · refine ⟨t, ?_, ht⟩
    have hshape : [PhaseEvent.searching, .found n] ++
        docs.map (fun d => PhaseEvent.loading d.docName d.industry) ++
        [.answering, t] =
        ([PhaseEvent.searching, .found n] ++
          docs.map (fun d => PhaseEvent.loading d.docName d.industry) ++
          [.answering]) ++ [t] := by
      simp
    rw [hshape, List.getLast?_concat]

theorem slowPath_events_ordered
    (retrieve : String → RetrievalFilter → Except String (List ChunkRef))
    (synthesize : String → List ChunkRef → Except String (String × List Source))
    (freshHandle question : String) (filt : RetrievalFilter) :
    List.Pairwise (fun a b => a ≤ b)
      ((slowPath retrieve synthesize freshHandle question filt).events.map
        phaseTag) ∧
    ((slowPath retrieve synthesize freshHandle question filt).events.filter
      isTerminalEvent).length = 1 ∧
    ∃ t, (slowPath retrieve synthesize freshHandle question
        filt).events.getLast? = some t ∧ isTerminalEvent t = true := by
  simp only [slowPath]
  cases hr : retrieve question filt with
  | error m =>
    dsimp only
    refine ⟨?_, ?_, .error m, ?_, rfl⟩ <;>
      simp [phaseTag, isTerminalEvent, List.pairwise_cons]
  | ok chunks =>
    dsimp only
    cases hs : synthesize question chunks with
    | error m =>
      dsimp only
      exact slow_events_ordered (dedupByDoc chunks []).length
        (dedupByDoc chunks []) (.error m) rfl rfl
    | ok p =>
      obtain ⟨a, srcs⟩ := p
      dsimp only
      exact slow_events_ordered (dedupByDoc chunks []).length
        (dedupByDoc chunks [])
        (.answer { answer := a, sources := srcs, context_id := freshHandle })
        rfl rfl

/-- C4: in every emitted phase-event sequence, the phase order
`Searching ≤ Found ≤ Loading ≤ Answering ≤ terminal` holds pairwise,
exactly one terminal event occurs, and it is the last event (so nothing
follows it). -/
theorem phase_event_protocol (load : String → Option (List ChunkRef))
    (retrieve : String → RetrievalFilter → Except String (List ChunkRef))
    (synthesize : String → List ChunkRef → Except String (String × List Source))
    (freshHandle : String) (req : QueryRequest) :
    List.Pairwise (fun a b => a ≤ b)
      ((orchestrate load retrieve synthesize freshHandle req).events.map
        phaseTag) ∧
    ((orchestrate load retrieve synthesize freshHandle req).events.filter
      isTerminalEvent).length = 1 ∧
    ∃ t, (orchestrate load retrieve synthesize freshHandle
        req).events.getLast? = some t ∧ isTerminalEvent t = true := by
  cases req with
  | fresh question filt =>
    simp only [orchestrate]
    exact slowPath_events_ordered retrieve synthesize freshHandle question _
  | withPinned question pinned =>
    simp only [orchestrate]
    exact slowPath_events_ordered retrieve synthesize freshHandle question _
  | withHandle question handle =>
    simp only [orchestrate]
    cases hl : load handle with
    | none =>
      dsimp only
      exact slowPath_events_ordered retrieve synthesize freshHandle question
        RetrievalFilter.unrestricted
    | some chunks =>
      dsimp only
      cases hs : synthesize question chunks with
      | error m =>
        dsimp only
        refine ⟨?_, ?_, .error m, ?_, rfl⟩ <;>
          simp [phaseTag, isTerminalEvent, List.pairwise_cons]
      | ok p =>
        obtain ⟨a, srcs⟩ := p
        dsimp only
        refine ⟨?_, ?_,
          .answer { answer := a, sources := srcs, context_id := freshHandle },
          ?_, rfl⟩ <;>
          simp [phaseTag, isTerminalEvent, List.pairwise_cons]

end TrendTool
